import Mathlib

/-!
Verification development for the TimeMark editor (`timemarkapp.py`).

The application is a Flask page whose core logic is the embedded canvas
script: a text fitter (`fitFontToWidth`), a date formatter
(`formatDateDDMMYYYY`), a canvas sizing routine (`fitCanvasToImage`), a
mask buffer with an alpha scan (`maskHasSomething`), a blur-or-sharp base
pass (`drawBase`), a two-cluster text layout (`drawLeftCluster`,
`drawWatermark`), event handlers (render / reset / download / clearMask /
paint / image load), and one server route (`admin_delete_user`).

The embedding below follows that script statement by statement.  JavaScript
floating point numbers are modelled as rationals, `Math.round` as Mathlib's
`round` (both are round-half-up), and the opaque canvas rasterisation
primitives (`drawImage` resampling, compositing, text filling, circle
filling) as fields of an abstract `CanvasEnv`.  Text measurement
(`ctx.measureText` after setting `ctx.font`) is a parameter
`measure : String → String → ℚ` taking the font specification string and
the text.
-/

namespace Timemark

/-- JS helper `clamp(n, lo, hi) = Math.max(lo, Math.min(hi, n))`. -/
def clampI (n lo hi : ℤ) : ℤ := max lo (min hi n)

/-! ### Text fitter (`fitFontToWidth`)

The source loop
`let size = startSize; while(size > minSize){ if(width <= maxWidth) return size; size -= 1; } return minSize;`
is embedded as structural recursion on the remaining iteration count
`(startSize - minSize).toNat`; at fuel `n+1` the size under test is
`minSize + (n+1)`, so the first size tested is `startSize` and the last is
`minSize + 1`, exactly as in the loop. -/

def fitFrom (measure : String → String → ℚ) (text : String) (tpl : ℤ → String)
    (minSize : ℤ) (maxWidth : ℚ) : ℕ → ℤ
  | 0 => minSize
  | n + 1 =>
    let size : ℤ := minSize + (n + 1 : ℕ)
    if measure (tpl size) text ≤ maxWidth then size
    else fitFrom measure text tpl minSize maxWidth n

/-- `fitFontToWidth(ctx, text, fontTemplateFn, startSize, minSize, maxWidth)`. -/
def fitFontToWidth (measure : String → String → ℚ) (text : String) (tpl : ℤ → String)
    (startSize minSize : ℤ) (maxWidth : ℚ) : ℤ :=
  fitFrom measure text tpl minSize maxWidth (startSize - minSize).toNat

/-! ### Date formatting (`formatDateDDMMYYYY`)

Strings are handled as `List Char`; `splitDash` is JS
`String.prototype.split("-")` for the one-character separator `"-"`, and
`padStart` is `String.prototype.padStart`. -/

/-- JS `iso.split("-")`: splitting on a single hyphen.  A hyphen starts a
new (initially empty) part; any other character is prepended to the current
first part. -/
def splitDash : List Char → List (List Char)
  | [] => [[]]
  | c :: rest =>
    if c = '-' then [] :: splitDash rest
    else
      match splitDash rest with
      | [] => [[c]]
      | p :: ps => (c :: p) :: ps

/-- JS `s.padStart(n, c)`. -/
def padStart (s : List Char) (n : ℕ) (c : Char) : List Char :=
  if n ≤ s.length then s else List.replicate (n - s.length) c ++ s

/-- `formatDateDDMMYYYY(iso)`: empty input yields `""`; an input that does
not split into exactly three hyphen-separated parts yields `""`; otherwise
the parts are reassembled as `DD/MM/YYYY` with the day and month padded to
two characters. -/
def formatDateDDMMYYYY (iso : List Char) : List Char :=
  if iso = [] then []
  else
    match splitDash iso with
    | [y, m, d] => padStart d 2 '0' ++ '/' :: (padStart m 2 '0' ++ '/' :: y)
    | _ => []

/-- `formatDateDDMMYYYY` on `String`, as used by `drawAllOverlay`. -/
def formatDateStr (iso : String) : String :=
  String.mk (formatDateDDMMYYYY iso.data)

/-! ### Canvas sizing (`fitCanvasToImage` arithmetic)

`const MAX_DIM = 2500; if (w > MAX_DIM || h > MAX_DIM) { const ratio =
Math.min(MAX_DIM/w, MAX_DIM/h); w = Math.round(w*ratio); h =
Math.round(h*ratio); }` -/

/-- The dimension computation of `fitCanvasToImage`. -/
def fitCanvasDims (w h : ℕ) : ℕ × ℕ :=
  if 2500 < w ∨ 2500 < h then
    let ratio : ℚ := min ((2500 : ℚ) / w) ((2500 : ℚ) / h)
    ((round ((w : ℚ) * ratio)).toNat, (round ((h : ℚ) * ratio)).toNat)
  else (w, h)

/-! ### Watermark cluster (`drawWatermark`)

Each `const` of the source function becomes one definition.  `W`, `H` are
the canvas dimensions, `m` the text-measure function. -/

/-- `const BASE = Math.min(W,H)`. -/
def baseDim (W H : ℕ) : ℕ := min W H

/-- `const padR = clamp(Math.round(W * 0.02), 10, 40)`. -/
def padR (W : ℕ) : ℤ := clampI (round ((W : ℚ) * 2 / 100)) 10 40

/-- `const padB = clamp(Math.round(H * 0.03), 10, 60)`. -/
def padB (H : ℕ) : ℤ := clampI (round ((H : ℚ) * 3 / 100)) 10 60

/-- `const timePart = "Time"`. -/
def timePart : String := "Time"

/-- `const markPart = "mark"`. -/
def markPart : String := "mark"

/-- `const fullText = timePart + markPart`. -/
def fullText : String := timePart ++ markPart

/-- `const subText = "100% Chan thuc"` (characters as in the source file). -/
def subText : String := "100% Ch√¢n th·ª±c"

/-- The watermark font template `` (s)=>`700 ${s}px "Roboto Condensed", Roboto, Arial, sans-serif` ``. -/
def wmTpl (s : ℤ) : String :=
  "700 " ++ toString s ++ "px \"Roboto Condensed\", Roboto, Arial, sans-serif"

/-- The caption font template (same template string as `wmTpl`). -/
def subTpl (s : ℤ) : String :=
  "700 " ++ toString s ++ "px \"Roboto Condensed\", Roboto, Arial, sans-serif"

/-- `let wmFont = clamp(Math.round(BASE * 0.050), 16, 44)` (value before fitting). -/
def wmFont0 (W H : ℕ) : ℤ := clampI (round ((baseDim W H : ℚ) * 50 / 1000)) 16 44

/-- `const maxWmWidth = Math.round(W * 0.35)`. -/
def maxWmWidth (W : ℕ) : ℤ := round ((W : ℚ) * 35 / 100)

/-- `wmFont = fitFontToWidth(ctx, fullText, wmTpl, wmFont, 12, maxWmWidth)`. -/
def wmFont (m : String → String → ℚ) (W H : ℕ) : ℤ :=
  fitFontToWidth m fullText wmTpl (wmFont0 W H) 12 ((maxWmWidth W : ℤ) : ℚ)

/-- `subFont = clamp(Math.round(wmFont * 0.55), 10, 24)` (recomputed after the fit). -/
def subFont (m : String → String → ℚ) (W H : ℕ) : ℤ :=
  clampI (round ((wmFont m W H : ℚ) * 55 / 100)) 10 24

/-- `const wmWidth = ctx.measureText(fullText).width` with `ctx.font = wmTpl(wmFont)`. -/
def wmWidth (m : String → String → ℚ) (W H : ℕ) : ℚ :=
  m (wmTpl (wmFont m W H)) fullText

/-- `const timeW = ctx.measureText(timePart).width` inside `drawWatermark`. -/
def wmTimePartW (m : String → String → ℚ) (W H : ℕ) : ℚ :=
  m (wmTpl (wmFont m W H)) timePart

/-- `const startX = W - padR - wmWidth`. -/
def wmStartX (m : String → String → ℚ) (W H : ℕ) : ℚ :=
  (W : ℚ) - (padR W : ℚ) - wmWidth m W H

/-- `const centerX = startX + wmWidth / 2`. -/
def wmCenterX (m : String → String → ℚ) (W H : ℕ) : ℚ :=
  wmStartX m W H + wmWidth m W H / 2

/-- `const yBottom = H - padB`. -/
def wmYBottom (H : ℕ) : ℤ := (H : ℤ) - padB H

/-- `const yTop = yBottom - Math.round(subFont * 1.15)`. -/
def wmYTop (m : String → String → ℚ) (W H : ℕ) : ℤ :=
  wmYBottom H - round ((subFont m W H : ℚ) * 115 / 100)

/-- The return value of `drawWatermark`:
`padR + Math.round(wmWidth) + clamp(Math.round(W*0.03), 12, 40)` —
the horizontal span reserved on the right for the watermark. -/
def drawWatermarkReserved (m : String → String → ℚ) (W H : ℕ) : ℤ :=
  padR W + round (wmWidth m W H) + clampI (round ((W : ℚ) * 3 / 100)) 12 40

/-! ### Left info cluster (`drawLeftCluster`)

Parameters: `m` the measure, `W H` the canvas size, `r` the
`reservedRight` argument, `tv`/`dt`/`wt` the `timeVal`/`dateText`/`dowText`
strings.  Again one definition per `const` of the source. -/

/-- `const addr1 = "..."` (first fixed address line, characters as in the source file). -/
def addr1 : String := "268B V√µ Nguy√™n Gi√°p, B·∫Øc M·ªπ Ph√∫, Ng≈©"

/-- `const addr2 = "..."` (second fixed address line, characters as in the source file). -/
def addr2 : String := "H√†nh S∆°n, ƒê√† N·∫µng 550000"

/-- `const leftMaxWidth = Math.round(W * 0.60)`. -/
def leftMaxWidth (W : ℕ) : ℤ := round ((W : ℚ) * 60 / 100)

/-- `const leftX = clamp(Math.round(W * 0.03), 10, 42)`. -/
def leftX (W : ℕ) : ℤ := clampI (round ((W : ℚ) * 3 / 100)) 10 42

/-- `const bottomPad = clamp(Math.round(H * 0.04), 10, 70)`. -/
def bottomPad (H : ℕ) : ℤ := clampI (round ((H : ℚ) * 4 / 100)) 10 70

/-- `const rightLimit = Math.min(leftX + leftMaxWidth, W - reservedRight)`. -/
def rightLimit (W : ℕ) (r : ℤ) : ℤ := min (leftX W + leftMaxWidth W) ((W : ℤ) - r)

/-- `const maxWidth = Math.max(150, rightLimit - leftX)`. -/
def maxWidth (W : ℕ) (r : ℤ) : ℤ := max 150 (rightLimit W r - leftX W)

/-- `const shadowBlur = Math.round(BASE * 0.004)`. -/
def shadowBlur (W H : ℕ) : ℤ := round ((baseDim W H : ℚ) * 4 / 1000)

/-- The address font template `` (s)=>`400 ${s}px "Roboto Condensed", Roboto, Arial, sans-serif` ``. -/
def addrTpl (s : ℤ) : String :=
  "400 " ++ toString s ++ "px \"Roboto Condensed\", Roboto, Arial, sans-serif"

/-- `let addrFont = clamp(Math.round(BASE * 0.040), 12, 34)` (value before fitting). -/
def addrFont0 (W H : ℕ) : ℤ := clampI (round ((baseDim W H : ℚ) * 40 / 1000)) 12 34

/-- `addrFont = fitFontToWidth(ctx, addr1, addrTpl, addrFont, 10, maxWidth)`. -/
def addrFont (m : String → String → ℚ) (W H : ℕ) (r : ℤ) : ℤ :=
  fitFontToWidth m addr1 addrTpl (addrFont0 W H) 10 ((maxWidth W r : ℤ) : ℚ)

/-- `const addrLineH = Math.round(addrFont * 1.18)`. -/
def addrLineH (m : String → String → ℚ) (W H : ℕ) (r : ℤ) : ℤ :=
  round ((addrFont m W H r : ℚ) * 118 / 100)

/-- `const addrBlockH = addrLineH * 2`. -/
def addrBlockH (m : String → String → ℚ) (W H : ℕ) (r : ℤ) : ℤ :=
  addrLineH m W H r * 2

/-- `const gapMetaToAddr = clamp(Math.round(BASE * 0.030), 10, 36)`. -/
def gapMetaToAddr (W H : ℕ) : ℤ := clampI (round ((baseDim W H : ℚ) * 30 / 1000)) 10 36

/-- The time font template `` (s)=>`700 ${s}px "Roboto Condensed", Roboto, Arial, sans-serif` ``. -/
def timeTpl (s : ℤ) : String :=
  "700 " ++ toString s ++ "px \"Roboto Condensed\", Roboto, Arial, sans-serif"

/-- `let timeFont = clamp(Math.round(BASE * 0.085), 28, 82)` (value before fitting). -/
def timeFont0 (W H : ℕ) : ℤ := clampI (round ((baseDim W H : ℚ) * 85 / 1000)) 28 82

/-- `const minMetaW = Math.round(maxWidth * 0.34)`. -/
def minMetaW (W : ℕ) (r : ℤ) : ℤ := round ((maxWidth W r : ℚ) * 34 / 100)

/-- `const maxTimeW = Math.max(80, maxWidth - minMetaW)`. -/
def maxTimeW (W : ℕ) (r : ℤ) : ℤ := max 80 (maxWidth W r - minMetaW W r)

/-- `timeFont = fitFontToWidth(ctx, timeVal, timeTpl, timeFont, 18, maxTimeW)`. -/
def timeFont (m : String → String → ℚ) (W H : ℕ) (r : ℤ) (tv : String) : ℤ :=
  fitFontToWidth m tv timeTpl (timeFont0 W H) 18 ((maxTimeW W r : ℤ) : ℚ)

/-- `const timeScaleY = 1.50` (vertical stretch only — the x axis is unscaled). -/
def timeScaleY : ℚ := 150 / 100

/-- The metadata font template `` (s)=>`400 ${s}px "Roboto Condensed", Roboto, Arial, sans-serif` ``. -/
def metaTpl (s : ℤ) : String :=
  "400 " ++ toString s ++ "px \"Roboto Condensed\", Roboto, Arial, sans-serif"

/-- `let metaFont = clamp(Math.round(timeFont * 0.40), 10, 36)` (value before fitting). -/
def metaFont0 (m : String → String → ℚ) (W H : ℕ) (r : ℤ) (tv : String) : ℤ :=
  clampI (round ((timeFont m W H r tv : ℚ) * 40 / 100)) 10 36

/-- `const addrBottomY = H - bottomPad`. -/
def addrBottomY (H : ℕ) : ℤ := (H : ℤ) - bottomPad H

/-- `const timeBaselineY = addrBottomY - addrBlockH - gapMetaToAddr`. -/
def timeBaselineY (m : String → String → ℚ) (W H : ℕ) (r : ℤ) : ℤ :=
  addrBottomY H - addrBlockH m W H r - gapMetaToAddr W H

/-- `const timeW = ctx.measureText(timeVal).width` with `ctx.font = timeTpl(timeFont)`. -/
def timeW (m : String → String → ℚ) (W H : ℕ) (r : ℤ) (tv : String) : ℚ :=
  m (timeTpl (timeFont m W H r tv)) tv

/-- `const gapX = clamp(Math.round(BASE * 0.018), 8, 22)`. -/
def gapX (W H : ℕ) : ℤ := clampI (round ((baseDim W H : ℚ) * 18 / 1000)) 8 22

/-- `const lineX = leftX + timeW + gapX`. -/
def lineX (m : String → String → ℚ) (W H : ℕ) (r : ℤ) (tv : String) : ℚ :=
  (leftX W : ℚ) + timeW m W H r tv + (gapX W H : ℚ)

/-- `const asc = 0.80`. -/
def ascRatio : ℚ := 80 / 100

/-- `const desc = 0.10`. -/
def descRatio : ℚ := 10 / 100

/-- `const lineTop = timeBaselineY - Math.round(timeFont * asc * timeScaleY)`. -/
def lineTop (m : String → String → ℚ) (W H : ℕ) (r : ℤ) (tv : String) : ℤ :=
  timeBaselineY m W H r - round ((timeFont m W H r tv : ℚ) * ascRatio * timeScaleY)

/-- `const lineBottom = timeBaselineY + Math.round(timeFont * desc * timeScaleY)`. -/
def lineBottom (m : String → String → ℚ) (W H : ℕ) (r : ℤ) (tv : String) : ℤ :=
  timeBaselineY m W H r + round ((timeFont m W H r tv : ℚ) * descRatio * timeScaleY)

/-- `const metaX = lineX + gapX`. -/
def metaX (m : String → String → ℚ) (W H : ℕ) (r : ℤ) (tv : String) : ℚ :=
  lineX m W H r tv + (gapX W H : ℚ)

/-- `const metaMaxW = Math.max(80, rightLimit - metaX)`. -/
def metaMaxW (m : String → String → ℚ) (W H : ℕ) (r : ℤ) (tv : String) : ℚ :=
  max 80 ((rightLimit W r : ℚ) - metaX m W H r tv)

/-- `const longer = (dateText.length >= dowText.length) ? dateText : dowText`. -/
def longerText (dt wt : String) : String :=
  if wt.length ≤ dt.length then dt else wt

/-- `metaFont = fitFontToWidth(ctx, longer, metaTpl, metaFont, 10, metaMaxW)`. -/
def metaFont (m : String → String → ℚ) (W H : ℕ) (r : ℤ) (tv dt wt : String) : ℤ :=
  fitFontToWidth m (longerText dt wt) metaTpl (metaFont0 m W H r tv) 10 (metaMaxW m W H r tv)

/-- `const metaPad = Math.round(metaFont * 0.12)`. -/
def metaPad (m : String → String → ℚ) (W H : ℕ) (r : ℤ) (tv dt wt : String) : ℤ :=
  round ((metaFont m W H r tv dt wt : ℚ) * 12 / 100)

/-- `const dateY = lineTop + metaFont + metaPad`. -/
def dateY (m : String → String → ℚ) (W H : ℕ) (r : ℤ) (tv dt wt : String) : ℤ :=
  lineTop m W H r tv + metaFont m W H r tv dt wt + metaPad m W H r tv dt wt

/-- `const dowY = lineBottom - metaPad`. -/
def dowY (m : String → String → ℚ) (W H : ℕ) (r : ℤ) (tv dt wt : String) : ℤ :=
  lineBottom m W H r tv - metaPad m W H r tv dt wt

/-- `ctx.lineWidth = Math.max(2, Math.round(BASE * 0.004))` for the yellow divider. -/
def lineWidth (W H : ℕ) : ℤ := max 2 (round ((baseDim W H : ℚ) * 4 / 1000))

/-! Rightmost drawn x-coordinates of the six pieces the left cluster draws.
The time string is drawn left-aligned at `leftX` (the `scale(1, timeScaleY)`
transform stretches only the y axis, so its drawn width is `timeW`); the
divider is stroked at `x = lineX` with width `lineWidth` centred on the
path; the two metadata lines are drawn left-aligned at `metaX`; the two
address lines are drawn left-aligned at `leftX`. -/

/-- Rightmost x of the drawn time string: `leftX + timeW`. -/
def timeRight (m : String → String → ℚ) (W H : ℕ) (r : ℤ) (tv : String) : ℚ :=
  (leftX W : ℚ) + timeW m W H r tv

/-- Rightmost x of the stroked divider: `lineX + lineWidth/2`. -/
def lineRight (m : String → String → ℚ) (W H : ℕ) (r : ℤ) (tv : String) : ℚ :=
  lineX m W H r tv + (lineWidth W H : ℚ) / 2

/-- Rightmost x of the drawn date line: `metaX + width(dateText)`. -/
def dateRight (m : String → String → ℚ) (W H : ℕ) (r : ℤ) (tv dt wt : String) : ℚ :=
  metaX m W H r tv + m (metaTpl (metaFont m W H r tv dt wt)) dt

/-- Rightmost x of the drawn weekday line: `metaX + width(dowText)`. -/
def dowRight (m : String → String → ℚ) (W H : ℕ) (r : ℤ) (tv dt wt : String) : ℚ :=
  metaX m W H r tv + m (metaTpl (metaFont m W H r tv dt wt)) wt

/-- Rightmost x of the drawn first address line: `leftX + width(addr1)`. -/
def addr1Right (m : String → String → ℚ) (W H : ℕ) (r : ℤ) : ℚ :=
  (leftX W : ℚ) + m (addrTpl (addrFont m W H r)) addr1

/-- Rightmost x of the drawn second address line: `leftX + width(addr2)`. -/
def addr2Right (m : String → String → ℚ) (W H : ℕ) (r : ℤ) : ℚ :=
  (leftX W : ℚ) + m (addrTpl (addrFont m W H r)) addr2

/-! ### Rasters, the mask buffer, and the base pass

A pixel is an RGBA quadruple of bytes, a raster an assignment of pixels to
coordinates.  The mask canvas is kept with its alpha bytes listed
explicitly (row-major, one entry per pixel), because `maskHasSomething`
scans exactly those bytes.  The browser rasterisation primitives that the
script calls but does not implement (`drawImage` smoothed resampling,
`destination-in` and `source-over` compositing, filling an anti-aliased
circle, and filling the overlay text) are fields of `CanvasEnv`. -/

/-- An RGBA pixel. -/
abbrev Pix := ℕ × ℕ × ℕ × ℕ

/-- A raster image: pixels indexed by coordinates. -/
abbrev Img := ℕ → ℕ → Pix

/-- The mask canvas: its dimensions and the alpha byte of each pixel
(row-major; `0` = untouched). -/
structure Mask where
  width : ℕ
  height : ℕ
  data : List ℕ

/-- A mask whose every alpha byte is zero, as produced by resizing the mask
canvas and by `maskCtx.clearRect(0,0,w,h)` over the whole buffer. -/
def zeroMask (w h : ℕ) : Mask :=
  { width := w, height := h, data := List.replicate (w * h) 0 }

/-- `maskHasSomething()`: returns `false` if either dimension is zero,
otherwise scans the alpha channel and reports whether any byte is
positive. -/
def maskHasSomething (mk : Mask) : Bool :=
  if mk.width = 0 ∨ mk.height = 0 then false
  else mk.data.any (fun a => decide (0 < a))

/-- The browser rendering primitives used by the script. -/
structure CanvasEnv where
  /-- `ctx.drawImage(img, 0, 0, w, h)` onto a cleared `w×h` canvas:
  smoothed resampling of the whole source to the target size. -/
  resample : Img → ℕ → ℕ → Img
  /-- The nine-argument `drawImage(src, 0,0,sw,sh, 0,0,dw,dh)`: resampling
  the `(0,0,sw,sh)` crop of the source to a `dw×dh` target. -/
  resampleRect : Img → ℕ → ℕ → ℕ → ℕ → Img
  /-- `globalCompositeOperation = "destination-in"` followed by drawing the
  mask canvas: keeps the image only where the mask has alpha. -/
  destIn : Img → Mask → Img
  /-- `ctx.drawImage(src, 0, 0)` with default `source-over` compositing of
  `src` over the current content. -/
  over : Img → Img → Img
  /-- `maskCtx.arc(x, y, radius, 0, 2π); maskCtx.fill()` with
  `fillStyle = "rgba(255,255,255,0.95)"`: an anti-aliased filled circle
  accumulated into the mask. -/
  fillCircle : Mask → ℚ → ℚ → ℚ → Mask
  /-- The text of `drawWatermark` and `drawLeftCluster` filled over a base
  raster; it depends only on the canvas size and the three strings. -/
  fillOverlayText : Img → ℕ → ℕ → String → String → String → Img

/-- `drawBase()`: draw the scaled image; if the mask has content, build the
fake blur (downscale to `0.15×` with floors to at least 1 px, upscale back),
clip it by the mask with `destination-in`, and composite it over the sharp
base; otherwise the sharp base is the result. -/
def drawBase (env : CanvasEnv) (img : Img) (mk : Mask) (W H : ℕ) : Img :=
  let base := env.resample img W H
  if maskHasSomething mk then
    let smallW := max 1 (W * 15 / 100)
    let smallH := max 1 (H * 15 / 100)
    let small := env.resampleRect img W H smallW smallH
    let blur := env.resample small W H
    let blurMasked := env.destIn blur mk
    env.over base blurMasked
  else base

/-! ### Application state and the event handlers

The script's module-level mutable state (`img` with its natural size,
`hasImage`, `originalBitmap`, the visible canvas, the mask canvas, the form
fields, brush state, and the status line) is collected in `AppState`; each
event listener becomes a state transition.  An `Option String` result
component records the `alert(...)` message a handler raises, if any. -/

/-- The module-level mutable state of the script. -/
structure AppState where
  cvW : ℕ
  cvH : ℕ
  canvas : Img
  img : Img
  natW : ℕ
  natH : ℕ
  hasImage : Bool
  originalBitmap : Option Img
  mask : Mask
  timeField : String
  dateField : String
  dowField : String
  maskEnabled : Bool
  isPainting : Bool
  brush : ℕ
  status : String

/-- `fitCanvasToImage(w,h)`: compute the capped dimensions, assign them to
the visible canvas and the mask canvas (assigning a canvas size clears its
content) and `clearRect` the whole mask. -/
def fitCanvasToImage (s : AppState) (w h : ℕ) : AppState :=
  let d := fitCanvasDims w h
  { s with cvW := d.1, cvH := d.2,
           canvas := fun _ _ => (0, 0, 0, 0),
           mask := zeroMask d.1 d.2 }

/-- The text selection of `drawAllOverlay`:
`timeVal = $("time").value || "05:37"`,
`dateText = formatDateDDMMYYYY($("date").value) || "05/01/2026"`,
`dowText = $("dow").value || "Thu Nam"` (the weekday characters as in the
source file). -/
def overlayTexts (tf df wf : String) : String × String × String :=
  (if tf = "" then "05:37" else tf,
   if formatDateStr df = "" then "05/01/2026" else formatDateStr df,
   if wf = "" then "Th·ª© NƒÉm" else wf)

/-- `drawAllOverlay()`: nothing without an image; otherwise `drawBase()`
then the watermark and the left cluster filled on top, with the texts
chosen by `overlayTexts`. -/
def drawAllOverlay (env : CanvasEnv) (s : AppState) : Img :=
  if s.hasImage = false then s.canvas
  else
    let base := drawBase env s.img s.mask s.cvW s.cvH
    let t := overlayTexts s.timeField s.dateField s.dowField
    env.fillOverlayText base s.cvW s.cvH t.1 t.2.1 t.2.2

/-- The `img.onload` continuation of `loadImageFromUrl(url)`:
`fitCanvasToImage`, set `hasImage`, draw the image, snapshot
`originalBitmap`, default the date field to today when empty, set the
status line. -/
def loadImageOnload (env : CanvasEnv) (s : AppState) (im : Img) (w h : ℕ)
    (today : String) : AppState :=
  let s1 := fitCanvasToImage { s with img := im, natW := w, natH := h } w h
  { s1 with hasImage := true,
            canvas := env.resample im s1.cvW s1.cvH,
            originalBitmap := some (env.resample im s1.cvW s1.cvH),
            dateField := if s1.dateField = "" then today else s1.dateField,
            status := "·∫¢nh: " ++ toString s1.cvW ++ "x" ++ toString s1.cvH }

/-- The `render` click listener: alert and do nothing without an image,
otherwise `drawAllOverlay()` and a status update. -/
def renderClick (env : CanvasEnv) (s : AppState) : AppState × Option String :=
  if s.hasImage = false then (s, some "B·∫°n ch∆∞a ch·ªçn ·∫£nh.")
  else ({ s with canvas := drawAllOverlay env s, status := "ƒê√£ gh√©p overlay" }, none)

/-- The `reset` click listener: silently do nothing without an image,
otherwise recompute the canvas dimensions (which clears the mask), redraw
the original image, snapshot it, `clearRect` the mask, set the status. -/
def resetClick (env : CanvasEnv) (s : AppState) : AppState :=
  if s.hasImage = false then s
  else
    let s1 := fitCanvasToImage s s.natW s.natH
    { s1 with canvas := env.resample s1.img s1.cvW s1.cvH,
              originalBitmap := some (env.resample s1.img s1.cvW s1.cvH),
              mask := zeroMask s1.mask.width s1.mask.height,
              status := "ƒê√£ reset v·ªÅ ·∫£nh g·ªëc" }

/-- The `download` click listener: alert and do nothing without an image,
otherwise leave the state alone and download the canvas as
`timemark_export.png` (third component). -/
def downloadClick (s : AppState) : AppState × Option String × Option String :=
  if s.hasImage = false then (s, some "B·∫°n ch∆∞a ch·ªçn ·∫£nh.", none)
  else (s, none, some "timemark_export.png")

/-- The `clearMask` click listener: silently do nothing without an image,
otherwise `clearRect` the whole mask, repaint the base layer, set the
status. -/
def clearMaskClick (env : CanvasEnv) (s : AppState) : AppState :=
  if s.hasImage = false then s
  else
    let mk := zeroMask s.mask.width s.mask.height
    { s with mask := mk,
             canvas := drawBase env s.img mk s.cvW s.cvH,
             status := "ƒê√£ ho√†n t√°c x√≥a" }

/-- `paint(e)`: guarded by `maskEnabled && hasImage && isPainting`; when it
runs, fill a circle of radius `brush/2` at the mapped position into the
mask and repaint the base layer.  It never alerts. -/
def paintStep (env : CanvasEnv) (s : AppState) (x y : ℚ) : AppState × Option String :=
  if s.maskEnabled = false ∨ s.hasImage = false ∨ s.isPainting = false then (s, none)
  else
    let mk := env.fillCircle s.mask x y ((s.brush : ℚ) / 2)
    ({ s with mask := mk, canvas := drawBase env s.img mk s.cvW s.cvH }, none)

/-! ### The admin delete route (`admin_delete_user`)

The `users` table is a list of rows; `find?` is the
`SELECT ... WHERE username=? ... fetchone()`, `countP` the
`SELECT COUNT(*) ... WHERE role='admin'`, and the `DELETE` removes every
row with the given username (the schema makes usernames unique).  The
session is its `uid` value, or `none` when cleared.  The `username`
argument is the form value after `.strip()`. -/

/-- A row of the `users` table (the columns the route reads). -/
structure UserRow where
  uid : ℕ
  username : String
  role : String
deriving DecidableEq

/-- `SELECT COUNT(*) AS c FROM users WHERE role='admin'`. -/
def countAdmins (db : List UserRow) : ℕ :=
  db.countP (fun u => u.role == "admin")

/-- The guard of the route: the target row exists, has role `admin`, and at
most one admin row exists — in that case the route returns without
deleting. -/
def deleteBlocked (db : List UserRow) (uname : String) : Bool :=
  match db.find? (fun u => u.username == uname) with
  | some t => t.role == "admin" && decide (countAdmins db ≤ 1)
  | none => false

/-- `admin_delete_user`: empty username is a no-op; a blocked delete is a
no-op; otherwise delete the rows with that username and, if the posted
`uid` equals the session's `uid`, clear the session. -/
def adminDeleteUser (db : List UserRow) (sess : Option ℕ) (uname : String)
    (uid : Option ℕ) : List UserRow × Option ℕ :=
  if uname = "" then (db, sess)
  else if deleteBlocked db uname then (db, sess)
  else
    let db1 := db.filter (fun u => !(u.username == uname))
    match uid with
    | some k => if sess = some k then (db1, none) else (db1, sess)
    | none => (db1, sess)

/-- A constant text measure, used to instantiate the abstract `measure`
parameter in concrete checks. -/
def constMeasure (c : ℚ) : String → String → ℚ := fun _ _ => c

/-- An all-black raster, used to instantiate `Img` in concrete checks. -/
def blackImg : Img := fun _ _ => (0, 0, 0, 0)

/-- A trivial environment instantiating the abstract rendering primitives
in concrete checks. -/
def trivialEnv : CanvasEnv where
  resample := fun i _ _ => i
  resampleRect := fun i _ _ _ _ => i
  destIn := fun i _ => i
  over := fun _ src => src
  fillCircle := fun mk _ _ _ => mk
  fillOverlayText := fun i _ _ _ _ _ => i

/-- The initial state of the script: no image, empty fields, default brush. -/
def emptyState : AppState where
  cvW := 0
  cvH := 0
  canvas := blackImg
  img := blackImg
  natW := 0
  natH := 0
  hasImage := false
  originalBitmap := none
  mask := zeroMask 0 0
  timeField := ""
  dateField := ""
  dowField := ""
  maskEnabled := false
  isPainting := false
  brush := 55
  status := ""

/-! ## Helper lemmas -/

/-- `round` is monotone on rationals. -/
theorem round_mono_rat {x y : ℚ} (h : x ≤ y) : round x ≤ round y := by
  rw [round_eq, round_eq]
  exact Int.floor_le_floor (by linarith)

/-- Compute `round x` from bracketing bounds. -/
theorem round_val (x : ℚ) (z : ℤ) (h1 : (z : ℚ) ≤ x + 1 / 2)
    (h2 : x + 1 / 2 < (z : ℚ) + 1) : round x = z := by
  rw [round_eq]
  exact Int.floor_eq_iff.mpr ⟨h1, h2⟩

/-- `round x` is at least `x - 1/2`. -/
theorem round_ge_sub_half (x : ℚ) : x - 1 / 2 ≤ (round x : ℚ) := by
  have h := abs_sub_round x
  rw [abs_le] at h
  linarith [h.2]

/-- The fitter loop never goes below `minSize`. -/
theorem fitFrom_ge (m : String → String → ℚ) (t : String) (tpl : ℤ → String)
    (mn : ℤ) (mw : ℚ) : ∀ n : ℕ, mn ≤ fitFrom m t tpl mn mw n := by
  intro n
  induction n with
  | zero => simp [fitFrom]
  | succ k ih =>
    simp only [fitFrom]
    split
    · omega
    · exact ih

/-- The fitter loop returns at most `minSize + fuel`. -/
theorem fitFrom_le (m : String → String → ℚ) (t : String) (tpl : ℤ → String)
    (mn : ℤ) (mw : ℚ) : ∀ n : ℕ, fitFrom m t tpl mn mw n ≤ mn + n := by
  intro n
  induction n with
  | zero => simp [fitFrom]
  | succ k ih =>
    simp only [fitFrom]
    split
    · omega
    · calc fitFrom m t tpl mn mw k ≤ mn + k := ih
        _ ≤ mn + (k + 1 : ℕ) := by omega

/-- The fitter loop is monotone in the available width. -/
theorem fitFrom_mono (m : String → String → ℚ) (t : String) (tpl : ℤ → String)
    (mn : ℤ) {mw mw2 : ℚ} (h : mw ≤ mw2) :
    ∀ n : ℕ, fitFrom m t tpl mn mw n ≤ fitFrom m t tpl mn mw2 n := by
  intro n
  induction n with
  | zero => simp [fitFrom]
  | succ k ih =>
    simp only [fitFrom]
    by_cases h1 : m (tpl (mn + ((k + 1 : ℕ) : ℤ))) t ≤ mw
    · rw [if_pos h1, if_pos (le_trans h1 h)]
    · rw [if_neg h1]
      by_cases h2 : m (tpl (mn + ((k + 1 : ℕ) : ℤ))) t ≤ mw2
      · rw [if_pos h2]
        calc fitFrom m t tpl mn mw k ≤ mn + k := fitFrom_le m t tpl mn mw k
          _ ≤ mn + (k + 1 : ℕ) := by omega
      · rw [if_neg h2]
        exact ih

/-- The fitter loop either returns a size whose measured width fits, or
falls back to `minSize`. -/
theorem fitFrom_fits (m : String → String → ℚ) (t : String) (tpl : ℤ → String)
    (mn : ℤ) (mw : ℚ) :
    ∀ n : ℕ, m (tpl (fitFrom m t tpl mn mw n)) t ≤ mw ∨ fitFrom m t tpl mn mw n = mn := by
  intro n
  induction n with
  | zero => right; simp [fitFrom]
  | succ k ih =>
    simp only [fitFrom]
    split
    · left
      assumption
    · exact ih

/-- `fitFontToWidth` returns a size whose width fits whenever the width at
`minSize` fits. -/
theorem fitFontToWidth_fits (m : String → String → ℚ) (t : String) (tpl : ℤ → String)
    (s0 mn : ℤ) (mw : ℚ) (h : m (tpl mn) t ≤ mw) :
    m (tpl (fitFontToWidth m t tpl s0 mn mw)) t ≤ mw := by
  rcases fitFrom_fits m t tpl mn mw (s0 - mn).toNat with h1 | h1
  · exact h1
  · rw [fitFontToWidth, h1]
    exact h

/-! ## C2 — text fitter bounds and monotonicity -/

/-- C2.  For every text, font template and `maxWidthPx`, and sizes with
`minSize ≤ startSize`, `fitFontToWidth` returns a size between `minSize`
and `startSize`, and with all other arguments fixed, enlarging the
available width never decreases the returned size. -/
theorem fitFontToWidth_bounds_mono (m : String → String → ℚ) (text : String)
    (tpl : ℤ → String) (startSize minSize : ℤ) (mw : ℚ)
    (h : minSize ≤ startSize) :
    minSize ≤ fitFontToWidth m text tpl startSize minSize mw ∧
    fitFontToWidth m text tpl startSize minSize mw ≤ startSize ∧
    ∀ mw2 : ℚ, mw ≤ mw2 →
      fitFontToWidth m text tpl startSize minSize mw ≤
        fitFontToWidth m text tpl startSize minSize mw2 := by
  refine ⟨fitFrom_ge m text tpl minSize mw _, ?_, ?_⟩
  · have h1 := fitFrom_le m text tpl minSize mw (startSize - minSize).toNat
    rw [fitFontToWidth]
    have h2 : ((startSize - minSize).toNat : ℤ) = startSize - minSize :=
      Int.toNat_of_nonneg (by omega)
    omega
  · intro mw2 hmw
    exact fitFrom_mono m text tpl minSize hmw _

/-- Concrete instantiation of `fitFontToWidth_bounds_mono`. -/
theorem fitFontToWidth_bounds_mono_witness :
    (2 : ℤ) ≤ 5 ∧
    (2 : ℤ) ≤ fitFontToWidth (constMeasure 12) "ab" wmTpl 5 2 30 ∧
    fitFontToWidth (constMeasure 12) "ab" wmTpl 5 2 30 ≤ 5 ∧
    fitFontToWidth (constMeasure 12) "ab" wmTpl 5 2 30 ≤
      fitFontToWidth (constMeasure 12) "ab" wmTpl 5 2 40 :=
  ⟨by norm_num,
   (fitFontToWidth_bounds_mono (constMeasure 12) "ab" wmTpl 5 2 30 (by norm_num)).1,
   (fitFontToWidth_bounds_mono (constMeasure 12) "ab" wmTpl 5 2 30 (by norm_num)).2.1,
   (fitFontToWidth_bounds_mono (constMeasure 12) "ab" wmTpl 5 2 30 (by norm_num)).2.2 40
     (by norm_num)⟩

/-! ## C4 — date formatting -/

/-- `splitDash` never returns the empty list. -/
theorem splitDash_ne_nil (l : List Char) : splitDash l ≠ [] := by
  cases l with
  | nil => simp [splitDash]
  | cons c rest =>
    simp only [splitDash]
    split
    · simp
    · rcases h : splitDash rest with _ | ⟨p, ps⟩ <;> simp [h]

/-- The number of parts produced by `splitDash` is the hyphen count plus
one. -/
theorem splitDash_length (l : List Char) :
    (splitDash l).length = l.count '-' + 1 := by
  induction l with
  | nil => simp [splitDash]
  | cons c rest ih =>
    by_cases hc : c = '-'
    · subst hc
      simp [splitDash, List.count_cons, ih]
    · rcases h : splitDash rest with _ | ⟨p, ps⟩
      · exact absurd h (splitDash_ne_nil rest)
      · rw [h] at ih
        have hcc : ('-' : Char) ≠ c := fun hh => hc hh.symm
        simp [splitDash, hc, h, List.count_cons, hcc] at ih ⊢
        omega

/-- Splitting a hyphen-free list yields the singleton of that list. -/
theorem splitDash_no_dash (l : List Char) (h : '-' ∉ l) : splitDash l = [l] := by
  induction l with
  | nil => simp [splitDash]
  | cons c rest ih =>
    have hc : c ≠ '-' := fun hh => h (hh ▸ List.mem_cons_self c rest)
    have hrest : '-' ∉ rest := fun hh => h (List.mem_cons_of_mem c hh)
    simp [splitDash, hc, ih hrest]

/-- Splitting at the first hyphen peels off the hyphen-free prefix. -/
theorem splitDash_append (y r : List Char) (h : '-' ∉ y) :
    splitDash (y ++ '-' :: r) = y :: splitDash r := by
  induction y with
  | nil => simp [splitDash]
  | cons c y ih =>
    have hc : c ≠ '-' := fun hh => h (hh ▸ List.mem_cons_self c y)
    have hy : '-' ∉ y := fun hh => h (List.mem_cons_of_mem c hh)
    simp [splitDash, hc, ih hy]

/-- `padStart` is the identity on lists already long enough. -/
theorem padStart_of_length (s : List Char) (n : ℕ) (c : Char) (h : n ≤ s.length) :
    padStart s n c = s := by
  rw [padStart, if_pos h]

/-- C4.  `formatDateDDMMYYYY "2026-01-05" = "05/01/2026"`; every well-formed
`YYYY-MM-DD` input is reassembled as `DD/MM/YYYY`; and every input that does
not contain exactly two hyphens produces the empty string. -/
theorem formatDate_spec :
    formatDateDDMMYYYY ("2026-01-05".data) = ("05/01/2026").data ∧
    (∀ y mo d : List Char, '-' ∉ y → '-' ∉ mo → '-' ∉ d →
      mo.length = 2 → d.length = 2 →
      formatDateDDMMYYYY (y ++ '-' :: (mo ++ '-' :: d)) =
        d ++ '/' :: (mo ++ '/' :: y)) ∧
    (∀ s : List Char, s.count '-' ≠ 2 → formatDateDDMMYYYY s = []) := by
  refine ⟨by decide, ?_, ?_⟩
  · intro y mo d hy hm hd hlm hld
    have hne : y ++ '-' :: (mo ++ '-' :: d) ≠ [] := by simp
    rw [formatDateDDMMYYYY, if_neg hne, splitDash_append y _ hy,
      splitDash_append mo d hm, splitDash_no_dash d hd]
    show padStart d 2 '0' ++ '/' :: (padStart mo 2 '0' ++ '/' :: y) =
      d ++ '/' :: (mo ++ '/' :: y)
    rw [padStart_of_length d 2 '0' (le_of_eq hld.symm),
      padStart_of_length mo 2 '0' (le_of_eq hlm.symm)]
  · intro s hc
    rw [formatDateDDMMYYYY]
    split
    · rfl
    · have h1 := splitDash_length s
      rcases hsd : splitDash s with _ | ⟨a, _ | ⟨b, _ | ⟨c, _ | ⟨e, tl⟩⟩⟩⟩ <;>
        rw [hsd] at h1 <;>
        simp only [List.length_nil, List.length_cons] at h1 <;>
        first
        | rfl
        | omega

/-- Concrete instantiation of `formatDate_spec`. -/
theorem formatDate_spec_witness :
    formatDateDDMMYYYY ("1999".data ++ '-' :: ("12".data ++ '-' :: "31".data)) =
      "31".data ++ '/' :: ("12".data ++ '/' :: "1999".data) ∧
    formatDateDDMMYYYY ("hello".data) = [] :=
  ⟨formatDate_spec.2.1 ("1999".data) ("12".data) ("31".data)
      (by decide) (by decide) (by decide) (by decide) (by decide),
   formatDate_spec.2.2 ("hello".data) (by decide)⟩

/-! ## C5 — malformed-date fallback -/

/-- A cleared mask never has content. -/
theorem maskHasSomething_zeroMask (w h : ℕ) : maskHasSomething (zeroMask w h) = false := by
  rw [maskHasSomething]
  split
  · rfl
  · rw [List.any_eq_false]
    intro a ha
    have := List.eq_of_mem_replicate ha
    simp [this]

/-- C5.  Whenever the date field is empty or malformed (that is,
`formatDateDDMMYYYY` returns the empty string), the overlay renders the
fixed fallback date `"05/01/2026"`, the time and weekday fall back to
`"05:37"` and the fixed weekday string when their fields are empty, no
rendered text is ever empty, and the render handler reports no error. -/
theorem malformedDate_fallback (tf df wf : String) (h : formatDateStr df = "") :
    (overlayTexts tf df wf).2.1 = "05/01/2026" ∧
    (tf = "" → (overlayTexts tf df wf).1 = "05:37") ∧
    (wf = "" → (overlayTexts tf df wf).2.2 = "Th·ª© NƒÉm") ∧
    (overlayTexts tf df wf).1 ≠ "" ∧
    (overlayTexts tf df wf).2.1 ≠ "" ∧
    (overlayTexts tf df wf).2.2 ≠ "" ∧
    (∀ (env : CanvasEnv) (s : AppState), s.hasImage = true →
      (renderClick env s).2 = none) := by
  refine ⟨?_, ?_, ?_, ?_, ?_, ?_, ?_⟩
  · simp [overlayTexts, h]
  · intro ht
    simp [overlayTexts, ht]
  · intro hw
    simp [overlayTexts, hw]
  · by_cases ht : tf = "" <;> simp [overlayTexts, ht]
  · simp [overlayTexts, h]
  · by_cases hw : wf = "" <;> simp [overlayTexts, hw]
  · intro env s hs
    rw [renderClick, if_neg (by rw [hs]; exact Bool.true_eq_false ▸ (by simp))]

/-- Concrete instantiation of `malformedDate_fallback`. -/
theorem malformedDate_fallback_witness :
    (overlayTexts "" "notadate" "").2.1 = "05/01/2026" ∧
    (overlayTexts "" "notadate" "").1 = "05:37" ∧
    (overlayTexts "" "notadate" "").2.2 = "Th·ª© NƒÉm" := by
  have h := malformedDate_fallback "" "notadate" "" (by decide)
  exact ⟨h.1, h.2.1 rfl, h.2.2.1 rfl⟩

/-! ## C6 — blur-skip equivalence -/

/-- C6.  `maskHasSomething` is `true` exactly when some pixel of the mask
has positive alpha; it is `false` whenever a dimension is zero; and when it
is `false`, `drawBase` performs no blur pass — its output is the sharp base
image drawn alone. -/
theorem maskHasSomething_drawBase (mk : Mask)
    (hlen : mk.data.length = mk.width * mk.height) :
    (maskHasSomething mk = true ↔ ∃ a ∈ mk.data, 0 < a) ∧
    (mk.width = 0 ∨ mk.height = 0 → maskHasSomething mk = false) ∧
    (maskHasSomething mk = false →
      ∀ (env : CanvasEnv) (img : Img) (W H : ℕ),
        drawBase env img mk W H = env.resample img W H) := by
  refine ⟨?_, ?_, ?_⟩
  · rw [maskHasSomething]
    split
    · rename_i hz
      have hdata : mk.data = [] := by
        have : mk.data.length = 0 := by
          rw [hlen]
          rcases hz with hz | hz <;> simp [hz]
        exact List.eq_nil_of_length_eq_zero this
      simp [hdata]
    · rw [List.any_eq_true]
      simp
  · intro hz
    rw [maskHasSomething, if_pos hz]
  · intro hfalse env img W H
    rw [drawBase, if_neg (by rw [hfalse]; simp)]

/-- Concrete instantiation of `maskHasSomething_drawBase`. -/
theorem maskHasSomething_drawBase_witness :
    (maskHasSomething (zeroMask 2 3) = true ↔ ∃ a ∈ (zeroMask 2 3).data, 0 < a) ∧
    drawBase trivialEnv blackImg (zeroMask 2 3) 2 3 =
      trivialEnv.resample blackImg 2 3 := by
  have h := maskHasSomething_drawBase (zeroMask 2 3) (by simp [zeroMask])
  exact ⟨h.1, h.2.2 (maskHasSomething_zeroMask 2 3) trivialEnv blackImg 2 3⟩

/-! ## C7 — mask/canvas dimension invariant -/

/-- C7.  After an image load and after a reset, the mask buffer has exactly
the dimensions of the working canvas and every one of its alpha bytes is
zero — no stale mask content survives. -/
theorem mask_canvas_invariant (env : CanvasEnv) (s : AppState) (im : Img)
    (w h : ℕ) (today : String) :
    ((loadImageOnload env s im w h today).mask.width =
        (loadImageOnload env s im w h today).cvW ∧
      (loadImageOnload env s im w h today).mask.height =
        (loadImageOnload env s im w h today).cvH ∧
      ∀ a ∈ (loadImageOnload env s im w h today).mask.data, a = 0) ∧
    (s.hasImage = true →
      (resetClick env s).mask.width = (resetClick env s).cvW ∧
      (resetClick env s).mask.height = (resetClick env s).cvH ∧
      ∀ a ∈ (resetClick env s).mask.data, a = 0) := by
  constructor
  · refine ⟨rfl, rfl, ?_⟩
    intro a ha
    exact List.eq_of_mem_replicate ha
  · intro hs
    rw [resetClick, if_neg (by rw [hs]; simp)]
    refine ⟨rfl, rfl, ?_⟩
    intro a ha
    exact List.eq_of_mem_replicate ha

/-- Concrete instantiation of `mask_canvas_invariant`. -/
theorem mask_canvas_invariant_witness :
    (resetClick trivialEnv { emptyState with hasImage := true }).mask.width =
      (resetClick trivialEnv { emptyState with hasImage := true }).cvW ∧
    ∀ a ∈ (resetClick trivialEnv { emptyState with hasImage := true }).mask.data,
      a = 0 := by
  have h := (mask_canvas_invariant trivialEnv { emptyState with hasImage := true }
    blackImg 0 0 "").2 rfl
  exact ⟨h.1, h.2.2⟩

/-! ## C8 — mask clear idempotence -/

/-- C8.  After the `clearMask` (undo) action, the mask has no content and
every alpha byte is zero (the clear is total), and a subsequent render
produces exactly the output of a render of the same state with a
never-touched mask. -/
theorem clearMask_idempotent (env : CanvasEnv) (s : AppState)
    (h : s.hasImage = true) :
    maskHasSomething (clearMaskClick env s).mask = false ∧
    (∀ a ∈ (clearMaskClick env s).mask.data, a = 0) ∧
    drawAllOverlay env (clearMaskClick env s) =
      drawAllOverlay env { s with mask := zeroMask s.mask.width s.mask.height } := by
  rw [clearMaskClick, if_neg (by rw [h]; simp)]
  refine ⟨maskHasSomething_zeroMask _ _, ?_, ?_⟩
  · intro a ha
    exact List.eq_of_mem_replicate ha
  · simp [drawAllOverlay, h]

/-- Concrete instantiation of `clearMask_idempotent`. -/
theorem clearMask_idempotent_witness :
    maskHasSomething (clearMaskClick trivialEnv
      { emptyState with hasImage := true,
                        mask := { width := 1, height := 1, data := [200] } }).mask
      = false ∧
    drawAllOverlay trivialEnv (clearMaskClick trivialEnv
      { emptyState with hasImage := true,
                        mask := { width := 1, height := 1, data := [200] } }) =
      drawAllOverlay trivialEnv
        { emptyState with hasImage := true, mask := zeroMask 1 1 } := by
  have h := clearMask_idempotent trivialEnv
    { emptyState with hasImage := true,
                      mask := { width := 1, height := 1, data := [200] } } rfl
  exact ⟨h.1, h.2.2⟩

/-! ## C9 — empty-state actions -/

/-- C9 counterexample.  A paint stroke attempted while no image is loaded
is a silent no-op: it surfaces no user-visible prompt (the second component
is `none`, whereas the claim demands a prompt for `paintStroke` as well). -/
theorem emptyState_paint_no_prompt :
    paintStep trivialEnv
      { emptyState with maskEnabled := true, isPainting := true } 10 10 =
      ({ emptyState with maskEnabled := true, isPainting := true }, none) := by
  rw [paintStep, if_pos]
  right
  left
  rfl

/-- C9 (amended).  With no image loaded: `render` and `download` leave the
state unchanged and surface a user-visible prompt; `download` downloads
nothing; `paintStroke` leaves the state unchanged but is a silent no-op
(no prompt); none of the three raises a fault. -/
theorem emptyState_actions (env : CanvasEnv) (s : AppState)
    (h : s.hasImage = false) (x y : ℚ) :
    (renderClick env s).1 = s ∧ (renderClick env s).2 ≠ none ∧
    (downloadClick s).1 = s ∧ (downloadClick s).2.1 ≠ none ∧
    (downloadClick s).2.2 = none ∧
    paintStep env s x y = (s, none) := by
  refine ⟨?_, ?_, ?_, ?_, ?_, ?_⟩
  · rw [renderClick, if_pos h]
  · rw [renderClick, if_pos h]
    simp
  · rw [downloadClick, if_pos h]
  · rw [downloadClick, if_pos h]
    simp
  · rw [downloadClick, if_pos h]
  · rw [paintStep, if_pos (Or.inr (Or.inl h))]

/-- Concrete instantiation of `emptyState_actions`. -/
theorem emptyState_actions_witness :
    (renderClick trivialEnv emptyState).1 = emptyState ∧
    (renderClick trivialEnv emptyState).2 ≠ none ∧
    (downloadClick emptyState).2.1 ≠ none ∧
    paintStep trivialEnv emptyState 0 0 = (emptyState, none) := by
  have h := emptyState_actions trivialEnv emptyState rfl 0 0
  exact ⟨h.1, h.2.1, h.2.2.2.1, h.2.2.2.2.2⟩

/-! ## C10 — last-admin protection -/

/-- Splitting a `countP` by a second predicate. -/
theorem countP_split (l : List UserRow) (p q : UserRow → Bool) :
    l.countP p =
      l.countP (fun u => p u && !(q u)) + l.countP (fun u => p u && q u) := by
  induction l with
  | nil => simp
  | cons a l ih =>
    by_cases hp : p a = true <;> by_cases hq : q a = true <;>
      simp [List.countP_cons, hp, hq, ih] <;> omega

/-- Under a `Nodup` username column, at most one row matches a username. -/
theorem countP_username_le_one (db : List UserRow) (uname : String)
    (hnd : (db.map UserRow.username).Nodup) :
    db.countP (fun u => u.username == uname) ≤ 1 := by
  induction db with
  | nil => simp
  | cons a db ih =>
    rw [List.map_cons, List.nodup_cons] at hnd
    by_cases ha : a.username == uname
    · have hnone : db.countP (fun u => u.username == uname) = 0 := by
        rw [List.countP_eq_zero]
        intro u hu
        intro huu
        apply hnd.1
        rw [List.mem_map]
        exact ⟨u, hu, by
          have h1 : u.username = uname := by simpa using huu
          have h2 : a.username = uname := by simpa using ha
          rw [h1, h2]⟩
      simp [List.countP_cons, ha, hnone]
    · simp only [List.countP_cons, ha]
      simpa using ih hnd.2

/-- C10.  `admin_delete_user` never deletes the last admin: targeting an
admin row while at most one admin exists deletes nothing; the invariant
"at least one admin row exists" is preserved by every delete request; and a
non-blocked delete of one's own account clears the session. -/
theorem adminDelete_lastAdmin (db : List UserRow) (sess : Option ℕ)
    (uname : String) (uid : Option ℕ)
    (hnd : (db.map UserRow.username).Nodup) :
    (∀ t, db.find? (fun u => u.username == uname) = some t →
      t.role = "admin" → countAdmins db ≤ 1 →
      adminDeleteUser db sess uname uid = (db, sess)) ∧
    (1 ≤ countAdmins db →
      1 ≤ countAdmins (adminDeleteUser db sess uname uid).1) ∧
    (∀ k : ℕ, uname ≠ "" → deleteBlocked db uname = false → uid = some k →
      sess = some k → (adminDeleteUser db sess uname uid).2 = none) := by
  refine ⟨?_, ?_, ?_⟩
  · intro t hfind hrole hcount
    have hb : deleteBlocked db uname = true := by
      rw [deleteBlocked, hfind]
      simp [hrole, hcount]
    rw [adminDeleteUser]
    split
    · rfl
    · simp [hb]
  · intro hone
    by_cases h0 : uname = ""
    · rw [adminDeleteUser, if_pos h0]
      exact hone
    · by_cases hb : deleteBlocked db uname = true
      · rw [adminDeleteUser, if_neg h0, if_pos hb]
        exact hone
      · have hfst : (adminDeleteUser db sess uname uid).1 =
            db.filter (fun u => !(u.username == uname)) := by
          rw [adminDeleteUser, if_neg h0, if_neg hb]
          rcases uid with _ | k
          · simp
          · by_cases hs : sess = some k <;> simp [hs]
        rw [hfst]
        simp only [countAdmins, List.countP_filter]
        have hsplit := countP_split db (fun u => u.role == "admin")
          (fun u => u.username == uname)
        have hle1 := countP_username_le_one db uname hnd
        have hmono : db.countP
            (fun u => (u.role == "admin") && (u.username == uname)) ≤
            db.countP (fun u => u.username == uname) := by
          apply List.countP_mono_left
          intro u _ hu
          exact (Bool.and_elim_right hu)
        simp only [countAdmins] at hone hsplit
        by_cases h2 : 2 ≤ db.countP (fun u => u.role == "admin")
        · omega
        · have hz : db.countP
              (fun u => (u.role == "admin") && (u.username == uname)) = 0 := by
            rw [List.countP_eq_zero]
            intro u hu hcontra
            have hadm : u.role = "admin" := by
              simpa using Bool.and_elim_left hcontra
            have hun : u.username = uname := by
              simpa using Bool.and_elim_right hcontra
            have hfind : ∃ t, db.find? (fun x => x.username == uname) = some t := by
              rcases hf : db.find? (fun x => x.username == uname) with _ | t
              · rw [List.find?_eq_none] at hf
                exact absurd (by simp [hun]) (hf u hu)
              · exact ⟨t, hf⟩
            rcases hfind with ⟨t, ht⟩
            have htmem := List.mem_of_find?_eq_some ht
            have htmatch : t.username = uname := by
              simpa using List.find?_some ht
            have hut : u = t :=
              List.inj_on_of_nodup_map hnd hu htmem (by rw [hun, htmatch])
            have hc1 : countAdmins db ≤ 1 := by
              simp only [countAdmins]
              omega
            have hblocked : deleteBlocked db uname = true := by
              rw [deleteBlocked, ht]
              have htadm : t.role = "admin" := hut ▸ hadm
              simp [htadm, hc1]
            exact absurd hblocked hb
          omega
  · intro k h0 hb huid hsess
    rw [adminDeleteUser, if_neg h0, if_neg (by rw [hb]; simp), huid]
    simp [hsess]

/-- Concrete instantiation of `adminDelete_lastAdmin`. -/
theorem adminDelete_lastAdmin_witness :
    (adminDeleteUser
        [⟨1, "admin", "admin"⟩, ⟨2, "user", "user"⟩] (some 1) "admin" (some 1) =
      ([⟨1, "admin", "admin"⟩, ⟨2, "user", "user"⟩], some 1)) ∧
    1 ≤ countAdmins
      (adminDeleteUser
        [⟨1, "admin", "admin"⟩, ⟨2, "user", "user"⟩] (some 2) "user" (some 2)).1 ∧
    (adminDeleteUser
        [⟨1, "admin", "admin"⟩, ⟨2, "user", "user"⟩] (some 2) "user" (some 2)).2 =
      none := by
  refine ⟨?_, ?_, ?_⟩
  · exact (adminDelete_lastAdmin
      [⟨1, "admin", "admin"⟩, ⟨2, "user", "user"⟩] (some 1) "admin" (some 1)
      (by decide)).1 ⟨1, "admin", "admin"⟩ (by decide) rfl (by decide)
  · exact (adminDelete_lastAdmin
      [⟨1, "admin", "admin"⟩, ⟨2, "user", "user"⟩] (some 2) "user" (some 2)
      (by decide)).2.1 (by decide)
  · exact (adminDelete_lastAdmin
      [⟨1, "admin", "admin"⟩, ⟨2, "user", "user"⟩] (some 2) "user" (some 2)
      (by decide)).2.2 2 (by decide) (by decide) rfl rfl

/-! ## C3 — dimension cap -/

/-- Core facts about the capped dimensions when `h ≤ w` and `2500 < w`:
the long side rounds to exactly 2500 and the short side stays in
`[0, min 2500 h]`. -/
theorem cap_side (w h : ℕ) (hh : 0 < h) (hhw : h ≤ w) (hbig : 2500 < w) :
    round ((w : ℚ) * min ((2500 : ℚ) / w) ((2500 : ℚ) / h)) = 2500 ∧
    0 ≤ round ((h : ℚ) * min ((2500 : ℚ) / w) ((2500 : ℚ) / h)) ∧
    round ((h : ℚ) * min ((2500 : ℚ) / w) ((2500 : ℚ) / h)) ≤ 2500 ∧
    round ((h : ℚ) * min ((2500 : ℚ) / w) ((2500 : ℚ) / h)) ≤ (h : ℤ) := by
  have hwq : (0 : ℚ) < w := by
    have : 0 < w := by omega
    exact_mod_cast this
  have hhq : (0 : ℚ) < h := by exact_mod_cast hh
  have hhwq : (h : ℚ) ≤ w := by exact_mod_cast hhw
  have hmin : min ((2500 : ℚ) / w) ((2500 : ℚ) / h) = (2500 : ℚ) / w :=
    min_eq_left ((div_le_div_left (by norm_num) hwq hhq).mpr hhwq)
  rw [hmin]
  have hwr : (w : ℚ) * ((2500 : ℚ) / w) = 2500 := by field_simp
  have hr_nonneg : (0 : ℚ) ≤ (2500 : ℚ) / w := by positivity
  have hr1 : (2500 : ℚ) / w ≤ 1 := by
    rw [div_le_one hwq]
    exact_mod_cast hbig.le
  have hhr_le_h : (h : ℚ) * ((2500 : ℚ) / w) ≤ h := by nlinarith
  have hhr_le : (h : ℚ) * ((2500 : ℚ) / w) ≤ 2500 := by
    calc (h : ℚ) * ((2500 : ℚ) / w) ≤ (w : ℚ) * ((2500 : ℚ) / w) :=
          mul_le_mul_of_nonneg_right hhwq hr_nonneg
      _ = 2500 := hwr
  have hhr_nonneg : (0 : ℚ) ≤ (h : ℚ) * ((2500 : ℚ) / w) := by positivity
  refine ⟨?_, ?_, ?_, ?_⟩
  · rw [hwr]
    exact round_ofNat 2500
  · have := round_mono_rat hhr_nonneg
    rwa [round_zero] at this
  · have := round_mono_rat hhr_le
    rwa [round_ofNat] at this
  · have := round_mono_rat hhr_le_h
    rwa [round_natCast] at this

/-- C3.  If both natural dimensions are at most 2500 px the canvas keeps
them unchanged; if either exceeds 2500 px then the larger output dimension
is exactly 2500, neither dimension grows (downscaling only), and both
outputs are within one half of the exactly-rescaled value (the aspect ratio
matches the source within rounding). -/
theorem fitCanvasDims_cap (w h : ℕ) (hw : 0 < w) (hh : 0 < h) :
    ((w ≤ 2500 ∧ h ≤ 2500) → fitCanvasDims w h = (w, h)) ∧
    ((2500 < w ∨ 2500 < h) →
      max (fitCanvasDims w h).1 (fitCanvasDims w h).2 = 2500 ∧
      (fitCanvasDims w h).1 ≤ w ∧ (fitCanvasDims w h).2 ≤ h ∧
      |((fitCanvasDims w h).1 : ℚ) -
        (w : ℚ) * min ((2500 : ℚ) / w) ((2500 : ℚ) / h)| ≤ 1 / 2 ∧
      |((fitCanvasDims w h).2 : ℚ) -
        (h : ℚ) * min ((2500 : ℚ) / w) ((2500 : ℚ) / h)| ≤ 1 / 2) := by
  constructor
  · intro hsmall
    rw [fitCanvasDims, if_neg (by omega)]
  · intro hcond
    have hset1 : (fitCanvasDims w h).1 =
        (round ((w : ℚ) * min ((2500 : ℚ) / w) ((2500 : ℚ) / h))).toNat := by
      rw [fitCanvasDims, if_pos hcond]
    have hset2 : (fitCanvasDims w h).2 =
        (round ((h : ℚ) * min ((2500 : ℚ) / w) ((2500 : ℚ) / h))).toNat := by
      rw [fitCanvasDims, if_pos hcond]
    rw [hset1, hset2]
    rcases le_total h w with hhw | hwh
    · have hbig : 2500 < w := by
        rcases hcond with hc | hc
        · exact hc
        · omega
      obtain ⟨e1, e2, e3, e4⟩ := cap_side w h hh hhw hbig
      refine ⟨by omega, by omega, by omega, ?_, ?_⟩
      · have ha : (((round ((w : ℚ) * min ((2500 : ℚ) / w) ((2500 : ℚ) / h))).toNat
            : ℕ) : ℚ) = ((round ((w : ℚ) * min ((2500 : ℚ) / w) ((2500 : ℚ) / h))
            : ℤ) : ℚ) := by
          rw [← Int.cast_natCast, Int.toNat_of_nonneg (by omega)]
        rw [ha, abs_sub_comm]
        exact abs_sub_round _
      · have hb : (((round ((h : ℚ) * min ((2500 : ℚ) / w) ((2500 : ℚ) / h))).toNat
            : ℕ) : ℚ) = ((round ((h : ℚ) * min ((2500 : ℚ) / w) ((2500 : ℚ) / h))
            : ℤ) : ℚ) := by
          rw [← Int.cast_natCast, Int.toNat_of_nonneg e2]
        rw [hb, abs_sub_comm]
        exact abs_sub_round _
    · have hbig : 2500 < h := by
        rcases hcond with hc | hc
        · omega
        · exact hc
      have hcomm : min ((2500 : ℚ) / h) ((2500 : ℚ) / w) =
          min ((2500 : ℚ) / w) ((2500 : ℚ) / h) := min_comm _ _
      obtain ⟨e1, e2, e3, e4⟩ := cap_side h w hw hwh hbig
      rw [hcomm] at e1 e2 e3 e4
      refine ⟨by omega, by omega, by omega, ?_, ?_⟩
      · have ha : (((round ((w : ℚ) * min ((2500 : ℚ) / w) ((2500 : ℚ) / h))).toNat
            : ℕ) : ℚ) = ((round ((w : ℚ) * min ((2500 : ℚ) / w) ((2500 : ℚ) / h))
            : ℤ) : ℚ) := by
          rw [← Int.cast_natCast, Int.toNat_of_nonneg e2]
        rw [ha, abs_sub_comm]
        exact abs_sub_round _
      · have hb : (((round ((h : ℚ) * min ((2500 : ℚ) / w) ((2500 : ℚ) / h))).toNat
            : ℕ) : ℚ) = ((round ((h : ℚ) * min ((2500 : ℚ) / w) ((2500 : ℚ) / h))
            : ℤ) : ℚ) := by
          rw [← Int.cast_natCast, Int.toNat_of_nonneg (by omega)]
        rw [hb, abs_sub_comm]
        exact abs_sub_round _

/-- Concrete instantiation of `fitCanvasDims_cap`. -/
theorem fitCanvasDims_cap_witness :
    fitCanvasDims 800 600 = (800, 600) ∧
    max (fitCanvasDims 5000 2000).1 (fitCanvasDims 5000 2000).2 = 2500 ∧
    (fitCanvasDims 5000 2000).1 ≤ 5000 ∧
    (fitCanvasDims 5000 2000).2 ≤ 2000 := by
  have h1 := (fitCanvasDims_cap 800 600 (by norm_num) (by norm_num)).1
    ⟨by norm_num, by norm_num⟩
  have h2 := (fitCanvasDims_cap 5000 2000 (by norm_num) (by norm_num)).2
    (Or.inl (by norm_num))
  exact ⟨h1, h2.1, h2.2.1, h2.2.2.1⟩

/-! ## C1 — overlap avoidance

The claimed bound fails on small canvases: `maxWidth = Math.max(150,
rightLimit - leftX)` forces a 150 px floor even when the space left of the
watermark is smaller (or negative), and the fitter falls back to its
minimum size whether or not that size fits, so text is drawn past
`W - reservedRight` (and past 60% of the canvas width).  The counterexample
below instantiates the text measure with a constant width of 200 px — on a
100×100 canvas the watermark reserves 222 px, more than the whole canvas —
and the first address line is drawn out to x = 210.  The bound does hold
when the canvas leaves the floors unengaged and every fitted text fits its
cap; that is `overlap_avoidance_bounded`. -/

/-- C1 counterexample.  On a 100×100 canvas with a text measure that is
constantly 200 px, the first address line of the left cluster is drawn past
`W - reservedRight` and past 60% of the canvas width. -/
theorem overlap_avoidance_counterexample :
    ¬ (addr1Right (constMeasure 200) 100 100
          (drawWatermarkReserved (constMeasure 200) 100 100) ≤
        (100 : ℚ) - (drawWatermarkReserved (constMeasure 200) 100 100 : ℚ) ∧
       addr1Right (constMeasure 200) 100 100
          (drawWatermarkReserved (constMeasure 200) 100 100) -
          (leftX 100 : ℚ) ≤ (leftMaxWidth 100 : ℚ)) := by
  have h2 : ((100 : ℕ) : ℚ) * 2 / 100 = 2 := by norm_num
  have h3 : ((100 : ℕ) : ℚ) * 3 / 100 = 3 := by norm_num
  have hpadR : padR 100 = 10 := by
    rw [padR, h2, round_ofNat]
    decide
  have hwm : wmWidth (constMeasure 200) 100 100 = 200 := rfl
  have hres : drawWatermarkReserved (constMeasure 200) 100 100 = 222 := by
    rw [drawWatermarkReserved, hpadR, hwm, round_ofNat, h3, round_ofNat]
    decide
  have hleftX : leftX 100 = 10 := by
    rw [leftX, h3, round_ofNat]
    decide
  have h60 : ((100 : ℕ) : ℚ) * 60 / 100 = 60 := by norm_num
  have hlmw : leftMaxWidth 100 = 60 := by
    rw [leftMaxWidth, h60, round_ofNat]
    norm_num
  have haddr : addr1Right (constMeasure 200) 100 100 222 = 210 := by
    rw [addr1Right, hleftX]
    norm_num [constMeasure]
  rw [hres, haddr, hleftX, hlmw]
  intro hcontra
  have h1 := hcontra.1
  norm_num at h1

/-- C1 (amended).  Provided the canvas obeys the app's dimension cap
(`BASE ≤ 2500`), the 150 px `maxWidth` floor and the 80 px `metaMaxW` floor
are not engaged (`150 ≤ rightLimit - leftX` and `80 ≤ rightLimit - metaX`),
and every fitted text actually fits its cap (the address line fits
`maxWidth` at the minimum size 10, the time fits `maxTimeW` at the minimum
size 18, the second address line fits `maxWidth` at the fitted size, and
both metadata lines fit `metaMaxW` at the fitted size), then every piece
drawn by the left cluster — time, divider line, date, weekday and both
address lines — has its rightmost x at most `W - reservedRight`, and the
cluster stays within the 60% band `leftX + Math.round(W*0.60)`. -/
theorem overlap_avoidance_bounded (m : String → String → ℚ) (W H : ℕ)
    (tv dt wt : String)
    (H0 : baseDim W H ≤ 2500)
    (H1 : 150 ≤ rightLimit W (drawWatermarkReserved m W H) - leftX W)
    (H3 : (80 : ℚ) ≤ (rightLimit W (drawWatermarkReserved m W H) : ℚ) -
      metaX m W H (drawWatermarkReserved m W H) tv)
    (hA : m (addrTpl 10) addr1 ≤ (maxWidth W (drawWatermarkReserved m W H) : ℚ))
    (hA2 : m (addrTpl (addrFont m W H (drawWatermarkReserved m W H))) addr2 ≤
      (maxWidth W (drawWatermarkReserved m W H) : ℚ))
    (hT : m (timeTpl 18) tv ≤ (maxTimeW W (drawWatermarkReserved m W H) : ℚ))
    (hD : m (metaTpl (metaFont m W H (drawWatermarkReserved m W H) tv dt wt)) dt ≤
      metaMaxW m W H (drawWatermarkReserved m W H) tv)
    (hW : m (metaTpl (metaFont m W H (drawWatermarkReserved m W H) tv dt wt)) wt ≤
      metaMaxW m W H (drawWatermarkReserved m W H) tv) :
    ∀ x ∈ [timeRight m W H (drawWatermarkReserved m W H) tv,
           lineRight m W H (drawWatermarkReserved m W H) tv,
           dateRight m W H (drawWatermarkReserved m W H) tv dt wt,
           dowRight m W H (drawWatermarkReserved m W H) tv dt wt,
           addr1Right m W H (drawWatermarkReserved m W H),
           addr2Right m W H (drawWatermarkReserved m W H)],
      x ≤ (W : ℚ) - (drawWatermarkReserved m W H : ℚ) ∧
      x - (leftX W : ℚ) ≤ (leftMaxWidth W : ℚ) := by
  set r := drawWatermarkReserved m W H with hrdef
  have hRLle1 : rightLimit W r ≤ (W : ℤ) - r := min_le_right _ _
  have hRLle2 : rightLimit W r ≤ leftX W + leftMaxWidth W := min_le_left _ _
  have hWr : (rightLimit W r : ℚ) ≤ (W : ℚ) - (r : ℚ) := by
    exact_mod_cast hRLle1
  have h60 : (rightLimit W r : ℚ) ≤ (leftX W : ℚ) + (leftMaxWidth W : ℚ) := by
    exact_mod_cast hRLle2
  have hMW : maxWidth W r = rightLimit W r - leftX W := by
    rw [maxWidth]
    omega
  have cMW : (maxWidth W r : ℚ) = (rightLimit W r : ℚ) - (leftX W : ℚ) := by
    rw [hMW]
    push_cast
    ring
  have hMW150 : (150 : ℤ) ≤ maxWidth W r := le_max_left _ _
  have hMWq : (150 : ℚ) ≤ (maxWidth W r : ℚ) := by exact_mod_cast hMW150
  have hMMWub : (minMetaW W r : ℚ) ≤ (maxWidth W r : ℚ) * 34 / 100 + 1 / 2 := by
    rw [minMetaW]
    exact round_le_add_half _
  have hMMWlb : (0 : ℤ) ≤ minMetaW W r := by
    rw [minMetaW]
    have h0 : (0 : ℚ) ≤ (maxWidth W r : ℚ) * 34 / 100 := by linarith
    have hmono := round_mono_rat h0
    rwa [round_zero] at hmono
  have hMMWlbq : (0 : ℚ) ≤ (minMetaW W r : ℚ) := by exact_mod_cast hMMWlb
  have hMTW : maxTimeW W r = maxWidth W r - minMetaW W r := by
    rw [maxTimeW]
    apply max_eq_right
    have hq : ((80 : ℤ) : ℚ) ≤ ((maxWidth W r - minMetaW W r : ℤ) : ℚ) := by
      push_cast
      linarith
    exact_mod_cast hq
  have cMTW : (maxTimeW W r : ℚ) = (maxWidth W r : ℚ) - (minMetaW W r : ℚ) := by
    rw [hMTW]
    push_cast
    ring
  have hTimeW : timeW m W H r tv ≤ (maxTimeW W r : ℚ) := by
    rw [timeW, timeFont]
    exact fitFontToWidth_fits m tv timeTpl (timeFont0 W H) 18 _ hT
  have hAddr1W : m (addrTpl (addrFont m W H r)) addr1 ≤ (maxWidth W r : ℚ) := by
    rw [addrFont]
    exact fitFontToWidth_fits m addr1 addrTpl (addrFont0 W H) 10 _ hA
  have eTime : timeRight m W H r tv ≤ (rightLimit W r : ℚ) := by
    rw [timeRight]
    linarith
  have hmx : metaX m W H r tv = lineX m W H r tv + (gapX W H : ℚ) := by rw [metaX]
  have hlx : lineX m W H r tv =
      (leftX W : ℚ) + timeW m W H r tv + (gapX W H : ℚ) := by rw [lineX]
  have hgap8 : (8 : ℤ) ≤ gapX W H := le_max_left _ _
  have hgapq : (8 : ℚ) ≤ (gapX W H : ℚ) := by exact_mod_cast hgap8
  have hlw10 : lineWidth W H ≤ 10 := by
    rw [lineWidth]
    have hB : ((baseDim W H : ℕ) : ℚ) ≤ 2500 := by exact_mod_cast H0
    have h1 : ((baseDim W H : ℕ) : ℚ) * 4 / 1000 ≤ 10 := by linarith
    have h2 := round_mono_rat h1
    rw [round_ofNat] at h2
    exact max_le (by norm_num) h2
  have hlwq : (lineWidth W H : ℚ) ≤ 10 := by exact_mod_cast hlw10
  have eLine : lineRight m W H r tv ≤ (rightLimit W r : ℚ) := by
    rw [lineRight]
    linarith
  have hMetaMax : metaMaxW m W H r tv = (rightLimit W r : ℚ) - metaX m W H r tv := by
    rw [metaMaxW]
    exact max_eq_right H3
  have eDate : dateRight m W H r tv dt wt ≤ (rightLimit W r : ℚ) := by
    rw [dateRight]
    linarith
  have eDow : dowRight m W H r tv dt wt ≤ (rightLimit W r : ℚ) := by
    rw [dowRight]
    linarith
  have eAddr1 : addr1Right m W H r ≤ (rightLimit W r : ℚ) := by
    rw [addr1Right]
    linarith
  have eAddr2 : addr2Right m W H r ≤ (rightLimit W r : ℚ) := by
    rw [addr2Right]
    linarith
  intro x hx
  simp only [List.mem_cons, List.not_mem_nil, or_false] at hx
  rcases hx with rfl | rfl | rfl | rfl | rfl | rfl
  · exact ⟨le_trans eTime hWr, by linarith⟩
  · exact ⟨le_trans eLine hWr, by linarith⟩
  · exact ⟨le_trans eDate hWr, by linarith⟩
  · exact ⟨le_trans eDow hWr, by linarith⟩
  · exact ⟨le_trans eAddr1 hWr, by linarith⟩
  · exact ⟨le_trans eAddr2 hWr, by linarith⟩

/-- Concrete instantiation of `overlap_avoidance_bounded`: a 2000×1500
canvas with a constant 40 px measure. -/
theorem overlap_avoidance_bounded_witness :
    addr1Right (constMeasure 40) 2000 1500
        (drawWatermarkReserved (constMeasure 40) 2000 1500) ≤
      (2000 : ℚ) - (drawWatermarkReserved (constMeasure 40) 2000 1500 : ℚ) ∧
    addr1Right (constMeasure 40) 2000 1500
        (drawWatermarkReserved (constMeasure 40) 2000 1500) -
        (leftX 2000 : ℚ) ≤ (leftMaxWidth 2000 : ℚ) := by
  have hc2 : ((2000 : ℕ) : ℚ) * 2 / 100 = 40 := by norm_num
  have hc3 : ((2000 : ℕ) : ℚ) * 3 / 100 = 60 := by norm_num
  have hc60 : ((2000 : ℕ) : ℚ) * 60 / 100 = 1200 := by norm_num
  have hpadR : padR 2000 = 40 := by
    rw [padR, hc2, round_ofNat]
    decide
  have hwm : wmWidth (constMeasure 40) 2000 1500 = 40 := rfl
  have hres : drawWatermarkReserved (constMeasure 40) 2000 1500 = 120 := by
    rw [drawWatermarkReserved, hpadR, hwm, round_ofNat, hc3, round_ofNat]
    decide
  have hleftX : leftX 2000 = 42 := by
    rw [leftX, hc3, round_ofNat]
    decide
  have hlmw : leftMaxWidth 2000 = 1200 := by
    rw [leftMaxWidth, hc60, round_ofNat]
    norm_num
  have hRL : rightLimit 2000 120 = 1242 := by
    rw [rightLimit, hleftX, hlmw]
    decide
  have hbase : baseDim 2000 1500 = 1500 := by decide
  have hc18 : ((1500 : ℕ) : ℚ) * 18 / 1000 = 27 := by norm_num
  have hgap : gapX 2000 1500 = 22 := by
    rw [gapX, hbase, hc18, round_ofNat]
    decide
  have htimeW : timeW (constMeasure 40) 2000 1500 120 "05:37" = 40 := rfl
  have hmetaX : metaX (constMeasure 40) 2000 1500 120 "05:37" = 126 := by
    rw [metaX, lineX, hleftX, hgap, htimeW]
    norm_num
  have hH0 : baseDim 2000 1500 ≤ 2500 := by decide
  have hH1 : 150 ≤ rightLimit 2000 (drawWatermarkReserved (constMeasure 40) 2000 1500) -
      leftX 2000 := by
    rw [hres, hRL, hleftX]
    decide
  have hH3 : (80 : ℚ) ≤
      (rightLimit 2000 (drawWatermarkReserved (constMeasure 40) 2000 1500) : ℚ) -
      metaX (constMeasure 40) 2000 1500
        (drawWatermarkReserved (constMeasure 40) 2000 1500) "05:37" := by
    rw [hres, hRL, hmetaX]
    norm_num
  have hMW150 : (150 : ℤ) ≤ maxWidth 2000 (drawWatermarkReserved (constMeasure 40) 2000 1500) :=
    le_max_left _ _
  have hhA : constMeasure 40 (addrTpl 10) addr1 ≤
      (maxWidth 2000 (drawWatermarkReserved (constMeasure 40) 2000 1500) : ℚ) := by
    show (40 : ℚ) ≤ _
    have : ((150 : ℤ) : ℚ) ≤ _ := Int.cast_le.mpr hMW150
    push_cast at this
    linarith
  have hhA2 : constMeasure 40
      (addrTpl (addrFont (constMeasure 40) 2000 1500
        (drawWatermarkReserved (constMeasure 40) 2000 1500))) addr2 ≤
      (maxWidth 2000 (drawWatermarkReserved (constMeasure 40) 2000 1500) : ℚ) := by
    show (40 : ℚ) ≤ _
    have : ((150 : ℤ) : ℚ) ≤ _ := Int.cast_le.mpr hMW150
    push_cast at this
    linarith
  have hMTW80 : (80 : ℤ) ≤ maxTimeW 2000 (drawWatermarkReserved (constMeasure 40) 2000 1500) :=
    le_max_left _ _
  have hhT : constMeasure 40 (timeTpl 18) "05:37" ≤
      (maxTimeW 2000 (drawWatermarkReserved (constMeasure 40) 2000 1500) : ℚ) := by
    show (40 : ℚ) ≤ _
    have : ((80 : ℤ) : ℚ) ≤ _ := Int.cast_le.mpr hMTW80
    push_cast at this
    linarith
  have hMMW80 : (80 : ℚ) ≤ metaMaxW (constMeasure 40) 2000 1500
      (drawWatermarkReserved (constMeasure 40) 2000 1500) "05:37" := by
    rw [metaMaxW]
    exact le_max_left _ _
  have hhD : constMeasure 40
      (metaTpl (metaFont (constMeasure 40) 2000 1500
        (drawWatermarkReserved (constMeasure 40) 2000 1500) "05:37" "05/01/2026" "x"))
      "05/01/2026" ≤
      metaMaxW (constMeasure 40) 2000 1500
        (drawWatermarkReserved (constMeasure 40) 2000 1500) "05:37" := by
    show (40 : ℚ) ≤ _
    linarith
  have hhW : constMeasure 40
      (metaTpl (metaFont (constMeasure 40) 2000 1500
        (drawWatermarkReserved (constMeasure 40) 2000 1500) "05:37" "05/01/2026" "x"))
      "x" ≤
      metaMaxW (constMeasure 40) 2000 1500
        (drawWatermarkReserved (constMeasure 40) 2000 1500) "05:37" := by
    show (40 : ℚ) ≤ _
    linarith
  exact overlap_avoidance_bounded (constMeasure 40) 2000 1500 "05:37" "05/01/2026" "x"
    hH0 hH1 hH3 hhA hhA2 hhT hhD hhW
    (addr1Right (constMeasure 40) 2000 1500
      (drawWatermarkReserved (constMeasure 40) 2000 1500))
    (by simp)

end Timemark
